import Mathlib

/-!
Shallow embedding of src/audiobook.py (chapterize). Python strings are
modelled as lists of characters (code points). Python floats parsed from
decimal literals are modelled as exact integer fractions (numerator and
positive denominator). os.path.abspath is modelled as the identity on
paths: the filesystem is an external capability and every path handed to
the program is treated as already absolute. Python int() and float() are
modelled on decimal literals with optional sign and underscore digit
grouping; exponent forms and the special float values are not modelled
because no marker time string uses them.
-/

/-- Whitespace characters removed by Python str.strip (ASCII subset). -/
def pyIsSpace (c : Char) : Bool :=
  c = ' ' || c = '\t' || c = '\n' || c = '\r' || c = '\x0b' || c = '\x0c'

/-- Python str.strip: remove leading and trailing whitespace. -/
def pyStrip (s : List Char) : List Char :=
  ((s.dropWhile pyIsSpace).reverse.dropWhile pyIsSpace).reverse

/-- Python str.split(sep) for a one-character separator: split on every
occurrence of sep; the empty string yields a single empty field. -/
def pySplit (sep : Char) : List Char → List (List Char)
  | [] => [[]]
  | c :: rest =>
    if c = sep then [] :: pySplit sep rest
    else
      match pySplit sep rest with
      | g :: gs => (c :: g) :: gs
      | [] => [[c]]

/-- Python str.lower (ASCII model). -/
def pyLower (s : List Char) : List Char :=
  s.map Char.toLower

/-- Python str.upper (ASCII model). -/
def pyUpper (s : List Char) : List Char :=
  s.map Char.toUpper

/-- Python str.endswith: the string ends with the given text. -/
def pyEndsWith (s suf : List Char) : Bool :=
  s.drop (s.length - suf.length) == suf

/-- Python str.zfill: left-pad with zeros to the given width, keeping a
leading sign character in front of the padding. -/
def pyZfill (s : List Char) (width : Nat) : List Char :=
  if width ≤ s.length then s
  else
    match s with
    | c :: rest =>
      if c = '+' || c = '-' then c :: (List.replicate (width - s.length) '0' ++ rest)
      else List.replicate (width - s.length) '0' ++ (c :: rest)
    | [] => List.replicate width '0'

/-- Value of a list of decimal digit characters read left to right. -/
def digitsVal (ds : List Char) : Nat :=
  ds.foldl (fun a c => a * 10 + (c.toNat - 48)) 0

/-- No two adjacent underscores occur in the list. -/
def noDoubleUnderscore : List Char → Bool
  | [] => true
  | [_] => true
  | a :: b :: rest => !(a = '_' && b = '_') && noDoubleUnderscore (b :: rest)

/-- A nonempty digit group as accepted inside Python numeric literals:
digits with optional single underscores strictly between digits. -/
def digitGroupOk (ds : List Char) : Bool :=
  !ds.isEmpty && (ds.headD '_').isDigit && (ds.getLastD '_').isDigit
    && ds.all (fun c => c.isDigit || c = '_') && noDoubleUnderscore ds

/-- Value of a digit group, ignoring underscore separators. -/
def groupVal (ds : List Char) : Nat :=
  digitsVal (ds.filter (fun c => c ≠ '_'))

/-- Sign handling of Python int() on an already stripped string: an
optional leading sign, then a digit group. -/
def pyIntSigned : List Char → Option Int
  | [] => none
  | c :: rest =>
    if c = '+' then (if digitGroupOk rest then some (Int.ofNat (groupVal rest)) else none)
    else if c = '-' then (if digitGroupOk rest then some (-(Int.ofNat (groupVal rest))) else none)
    else if digitGroupOk (c :: rest) then some (Int.ofNat (groupVal (c :: rest))) else none

/-- Python int() on a decimal string: optional surrounding whitespace,
optional sign, then a digit group. -/
def pyInt (s : List Char) : Option Int :=
  pyIntSigned (pyStrip s)

/-- Unsigned part of a Python float decimal literal: integer digits, an
optional point, and fraction digits, at least one digit in total. The
result is an exact fraction with a power-of-ten denominator. -/
def pyFloatMag (t : List Char) : Option (Int × Nat) :=
  match pySplit '.' t with
  | [ip] => if digitGroupOk ip then some (Int.ofNat (groupVal ip), 1) else none
  | [ip, fp] =>
    if (digitGroupOk ip || ip.isEmpty) && (digitGroupOk fp || fp.isEmpty)
        && !(ip.isEmpty && fp.isEmpty) then
      some (Int.ofNat (groupVal ip * 10 ^ (fp.filter (fun c => c ≠ '_')).length
        + digitsVal (fp.filter (fun c => c ≠ '_'))), 10 ^ (fp.filter (fun c => c ≠ '_')).length)
    else none
  | _ => none

/-- Sign handling of Python float() on an already stripped string: an
optional leading sign around an unsigned decimal literal. -/
def pyFloatSigned : List Char → Option (Int × Nat)
  | [] => none
  | c :: rest =>
    if c = '+' then pyFloatMag rest
    else if c = '-' then (pyFloatMag rest).map (fun f => (-f.1, f.2))
    else pyFloatMag (c :: rest)

/-- Python float() on a plain decimal string: optional surrounding
whitespace and sign around an unsigned decimal literal. -/
def pyFloat (s : List Char) : Option (Int × Nat) :=
  pyFloatSigned (pyStrip s)

/-- Absolute value on integers. -/
def absInt (n : Int) : Int :=
  if n < 0 then -n else n

/-- Comparison of the exact fractions n1 / d1 and n2 / d2 for positive
denominators, by cross multiplication. -/
def fracLe (n1 : Int) (d1 : Nat) (n2 : Int) (d2 : Nat) : Bool :=
  decide (n1 * (d2 : Int) ≤ n2 * (d1 : Int))

/-- math.isclose(0.000, x, abs_tol=0.01) with the default rel_tol of
1e-9, evaluated exactly on the fraction x = p / q with q positive: the
formula is abs(a - b) <= max(rel_tol * max(abs a, abs b), abs_tol), and
with a = 0 the inner max is abs x, so the bound is the larger of
abs x / 10^9 and 1 / 100. -/
def isclose0 (p : Int) (q : Nat) : Bool :=
  if fracLe (absInt p) (1000000000 * q) 1 100 then fracLe (absInt p) q 1 100
  else fracLe (absInt p) q (absInt p) (1000000000 * q)

/-- Python str(n) for an integer, as a character list. -/
def intStr (n : Int) : List Char :=
  (toString n).data

/-- Model of os.path.abspath: the identity, paths being treated as
already absolute (the filesystem is an external capability). -/
def pyAbspath (p : List Char) : List Char :=
  p

/-- Python os.path.join for one directory and one relative entry. -/
def pathJoin (a b : List Char) : List Char :=
  if b.headD ' ' = '/' then b
  else if a = [] then b
  else if a.getLastD ' ' = '/' then a ++ b
  else a ++ '/' :: b

/-- An Anchor of audiobook.py: the process-wide Unknown sentinel, which
the source compares by object identity, or a constructed anchor with a
filepath and an hh, mm, ss decomposition. The constructor Anchor.known
is what every call of the Python Anchor class initializer produces, so
identity with the sentinel is exactly being the Unknown constructor. -/
inductive Anchor where
  | Unknown : Anchor
  | known (filepath : List Char) (time_hh time_mm time_ss : List Char) : Anchor
deriving DecidableEq

/-- Filepath field of an anchor; the sentinel stores the empty string. -/
def Anchor.filepath : Anchor → List Char
  | .Unknown => []
  | .known f _ _ _ => f

/-- Hours field of an anchor; the sentinel stores the empty string. -/
def Anchor.time_hh : Anchor → List Char
  | .Unknown => []
  | .known _ h _ _ => h

/-- Minutes field of an anchor; the sentinel stores the empty string. -/
def Anchor.time_mm : Anchor → List Char
  | .Unknown => []
  | .known _ _ m _ => m

/-- Seconds field of an anchor; the sentinel stores the empty string. -/
def Anchor.time_ss : Anchor → List Char
  | .Unknown => []
  | .known _ _ _ s => s

/-- Anchor.time property: the fields joined with colons. -/
def Anchor.time (a : Anchor) : List Char :=
  a.time_hh ++ ':' :: (a.time_mm ++ ':' :: a.time_ss)

/-- Anchor.split_time of audiobook.py: strip the raw time and split on
colons; two fields are minutes and seconds with minute overflow carried
into hours, three fields are taken as is, and any other shape is a
parsing error. The minute carry applies Python int, floor division,
modulus, str and zfill(2). -/
def split_time (time : List Char) : Option (List Char × List Char × List Char) :=
  match pySplit ':' (pyStrip time) with
  | [mm, ss] =>
    match pyInt mm with
    | none => none
    | some m =>
      if 60 ≤ m then
        some (pyZfill (intStr (m.fdiv 60)) 2, pyZfill (intStr (m.fmod 60)) 2, ss)
      else some (['0', '0'], mm, ss)
  | [hh, mm, ss] => some (hh, mm, ss)
  | _ => none

/-- Anchor initializer of audiobook.py: the filepath is made absolute
unless empty, and the time is decomposed by split_time unless it strips
to the empty string, in which case all three fields are empty. The
result is none exactly when the Python constructor raises. -/
def mkAnchor (filepath time : List Char) : Option Anchor :=
  if pyStrip time = [] then
    some (.known (if filepath = [] then [] else pyAbspath filepath) [] [] [])
  else
    (split_time time).map
      (fun t => .known (if filepath = [] then [] else pyAbspath filepath) t.1 t.2.1 t.2.2)

/-- Anchor.is_start_anchor of audiobook.py: int(mm) == 0 and
math.isclose(0.000, float(ss), abs_tol=0.01). The Python conjunction
short-circuits, so float(ss) is only evaluated when the minutes parse to
zero; none models a raised exception. -/
def is_start_anchor (a : Anchor) : Option Bool :=
  match pyInt a.time_mm with
  | none => none
  | some m =>
    if m = 0 then (pyFloat a.time_ss).map (fun f => isclose0 f.1 f.2)
    else some false

/-- A Chapter of audiobook.py: a title with a start and an end anchor. -/
structure Chapter where
  title : List Char
  start_anchor : Anchor
  end_anchor : Anchor
deriving DecidableEq

/-- Chapter.is_end_known of audiobook.py: the end anchor is not the
Unknown sentinel, compared by identity in the source, which the Anchor
embedding renders as not being the Unknown constructor. -/
def Chapter.is_end_known (c : Chapter) : Bool :=
  match c.end_anchor with
  | .Unknown => false
  | .known _ _ _ _ => true

/-- AudiobookPart.read_raw_markers of audiobook.py: scan the user text
frames of the tag, each a description and text pair, and return the text
of the first frame whose lowercased, stripped description is the marker
tag name; none when no frame matches. -/
def read_raw_markers (frames : List (List Char × List Char)) : Option (List Char) :=
  (frames.find? (fun fr => pyStrip (pyLower fr.1) == "overdrive mediamarkers".data)).map
    (fun fr => fr.2)

/-- AudiobookPart.read_chapters of audiobook.py. The XML parse of the
raw marker payload is an external capability, passed in as a function
from the payload to the list of Name and Time texts of its marker
elements. A missing marker tag returns the inner none, mirroring the
Python method returning None; the outer none models a raised exception
while building an anchor from a marker time. -/
def read_chapters (filepath : List Char) (frames : List (List Char × List Char))
    (xmlMarkers : List Char → List (List Char × List Char)) :
    Option (Option (List Chapter)) :=
  match read_raw_markers frames with
  | none => some none
  | some raw =>
    ((xmlMarkers raw).mapM fun m =>
      (mkAnchor filepath (pyStrip m.2)).map
        (fun a => Chapter.mk (pyStrip m.1) a .Unknown)).map some

/-- AudiobookPart.chapters property of audiobook.py: it evaluates the
stored chapter value plus the empty list. When read_chapters returned
None because the marker tag was absent, Python evaluates None + [] and
raises a TypeError, modelled as the error case. -/
def chapters_view (stored : Option (List Chapter)) : Except (List Char) (List Chapter) :=
  match stored with
  | none => .error "TypeError: unsupported operand types for +: NoneType and list".data
  | some l => .ok (l ++ [])

/-- Audiobook.read_dir of audiobook.py: sort the directory entries,
keep those ending with the dotted extension or with its uppercased
form, and join each kept name onto the directory. Python sorted on
strings is modelled by a stable insertion sort under the code point
order. -/
def read_dir (dirname : List Char) (entries : List (List Char)) (ext : List Char) :
    List (List Char) :=
  ((List.insertionSort (fun a b : List Char => a ≤ b) entries).filter
    (fun f => pyEndsWith f ('.' :: ext) || pyEndsWith f (pyUpper ('.' :: ext)))).map
    (fun f => pathJoin dirname f)

/-- Directory filter written from the words of the spec claim, for
comparison with read_dir: an entry is eligible when its extension
matches the configured extension case-insensitively. -/
def read_dir_spec (dirname : List Char) (entries : List (List Char)) (ext : List Char) :
    List (List Char) :=
  ((List.insertionSort (fun a b : List Char => a ≤ b) entries).filter
    (fun f => pyEndsWith (pyLower f) (pyLower ('.' :: ext)))).map
    (fun f => pathJoin dirname f)

/-- Loop body of Audiobook.merged_chapters of audiobook.py, for one
zipped predecessor and successor pair: keep the predecessor title and
start, ending at the successor start unless that start is a start
anchor, in which case the end is the Unknown sentinel; none models a
raised exception inside is_start_anchor. -/
def merge_pair (pc : Chapter × Chapter) : Option Chapter :=
  (is_start_anchor pc.2.start_anchor).map fun b =>
    Chapter.mk pc.1.title pc.1.start_anchor
      (if b then .Unknown else pc.2.start_anchor)

/-- Audiobook.merged_chapters of audiobook.py on the concatenated
chapter list of all parts: merge_pair over the zip of the list with its
tail, then append the last input chapter with an Unknown end. The empty
list is none because the source indexes the last element of an empty
list. -/
def merged_chapters : List Chapter → Option (List Chapter)
  | [] => none
  | c :: rest =>
    ((((c :: rest).dropLast).zip ((c :: rest).drop 1)).mapM merge_pair).map
      (fun merged => merged ++
        [Chapter.mk (rest.getLastD c).title (rest.getLastD c).start_anchor .Unknown])

/-- End anchor of a merged chapter as the spec claim words it: Unknown
when the successor start is a start anchor, the successor start
otherwise. -/
def merged_end_spec (succ : Chapter) : Anchor :=
  if is_start_anchor succ.start_anchor = some true then .Unknown else succ.start_anchor

/-- Merged chapter sequence written from the words of the spec claim,
for comparison with merged_chapters: output chapter i keeps the title
and start of input chapter i; every chapter but the last ends per
merged_end_spec at the next input chapter, and the last ends Unknown. -/
def merged_chapters_spec : List Chapter → List Chapter
  | [] => []
  | [c] => [Chapter.mk c.title c.start_anchor .Unknown]
  | c :: d :: rest =>
    Chapter.mk c.title c.start_anchor (merged_end_spec d) :: merged_chapters_spec (d :: rest)

/-- Characters kept by the regular expression of sanitize_filename:
word characters (ASCII model of the unicode word class), hyphen and
period. -/
def keepChar (c : Char) : Bool :=
  c.isAlphanum || c = '_' || c = '-' || c = '.'

/-- Audiobook.sanitize_filename of audiobook.py: strip surrounding
whitespace, turn every space into an underscore, then delete every character
that is not a word character, hyphen or period. -/
def sanitize_filename (filename : List Char) : List Char :=
  (((pyStrip filename).map (fun c => if c = ' ' then '_' else c)).filter keepChar)

/-- One invocation of the external media splitter: a stream copy from a
start time to the end of the input file, or between two times of the
same input file. The output path is recorded with the command. -/
inductive SplitCmd where
  | toEnd (input out : List Char) (start : List Char) : SplitCmd
  | range (input out : List Char) (start stop : List Char) : SplitCmd
deriving DecidableEq

/-- Audiobook.split of audiobook.py for one merged chapter: build the
output path from the one-based index and the sanitized title, then
either run ffmpeg from the chapter start to end of file when the end is
the Unknown sentinel, run it between the two times when both anchors
name the same file, or raise NotImplementedError when they differ; the
error case produces no splitter command. -/
def split (idx : Nat) (chapter : Chapter) (out_path : List Char) :
    Except (List Char) SplitCmd :=
  let out := pathJoin out_path
    (sanitize_filename (intStr (Int.ofNat idx) ++ ' ' :: chapter.title) ++ ".mp3".data)
  match chapter.end_anchor with
  | .Unknown => .ok (.toEnd chapter.start_anchor.filepath out chapter.start_anchor.time)
  | .known _ _ _ _ =>
    if chapter.start_anchor.filepath = chapter.end_anchor.filepath then
      .ok (.range chapter.start_anchor.filepath out
        chapter.start_anchor.time chapter.end_anchor.time)
    else .error "Merging of files is not supported yet".data

/-- Shorthand for a constructed anchor with string literal fields. -/
def exAnchor (fp hh mm ss : String) : Anchor :=
  .known fp.data hh.data mm.data ss.data

/-- Shorthand for a freshly parsed chapter: title and start, end still
Unknown, as AudiobookPart.read_chapters builds them. -/
def exChapter (t : String) (a : Anchor) : Chapter :=
  Chapter.mk t.data a .Unknown

example : mkAnchor "f".data "75:30".data
    = some (.known "f".data "01".data "15".data "30".data) := by decide

example : mkAnchor "f".data "5:30".data
    = some (.known "f".data "00".data "5".data "30".data) := by decide

example : mkAnchor "".data "".data = some (.known [] [] [] []) := by decide

example : is_start_anchor (.known "f".data "00".data "00".data "0.009".data)
    = some true := by decide

example : is_start_anchor (.known "f".data "00".data "00".data "0.02".data)
    = some false := by decide

example : is_start_anchor (.known "f".data "00".data "01".data "00".data)
    = some false := by decide

example : sanitize_filename "  My Chapter: One! ".data = "My_Chapter_One".data := by decide

example : merged_chapters
      [exChapter "Ch1" (exAnchor "file1" "00" "00" "00"),
       exChapter "Ch2" (exAnchor "file1" "00" "10" "00"),
       exChapter "Ch3" (exAnchor "file2" "00" "00" "00"),
       exChapter "Ch4" (exAnchor "file2" "00" "05" "00")]
    = some
      [Chapter.mk "Ch1".data (exAnchor "file1" "00" "00" "00") (exAnchor "file1" "00" "10" "00"),
       Chapter.mk "Ch2".data (exAnchor "file1" "00" "10" "00") .Unknown,
       Chapter.mk "Ch3".data (exAnchor "file2" "00" "00" "00") (exAnchor "file2" "00" "05" "00"),
       Chapter.mk "Ch4".data (exAnchor "file2" "00" "05" "00") .Unknown] := by decide

example : read_dir "d".data ["b.mp3".data, "a.MP3".data, "c.Mp3".data, "x.txt".data] "mp3".data
    = ["d/a.MP3".data, "d/b.mp3".data] := by decide

example : split 1 (Chapter.mk "Ch1".data (exAnchor "file1" "00" "00" "00") .Unknown) "out".data
    = .ok (.toEnd "file1".data "out/1_Ch1.mp3".data "00:00:00".data) := by rfl

example : (split 1 (Chapter.mk "Ch1".data (exAnchor "file1" "00" "00" "00")
    (exAnchor "file2" "00" "05" "00")) "out".data).isOk = false := by decide

/-- C10: merged_chapters is only defined on a non-empty concatenated
chapter sequence: on the empty sequence it fails, because the source
indexes the last element of an empty list, and every successful run
started from a non-empty sequence. -/
theorem merged_chapters_requires_nonempty :
    merged_chapters [] = none ∧
    ∀ cs : List Chapter, merged_chapters cs ≠ none → cs ≠ [] := by
  refine ⟨rfl, fun cs h hcs => ?_⟩
  subst hcs
  exact h rfl

/-- C10 witness: a one-chapter sequence merges successfully, and the
theorem applied to it yields its non-emptiness. -/
theorem merged_chapters_requires_nonempty_witness :
    [exChapter "Ch1" (exAnchor "file1" "00" "00" "00")] ≠ [] :=
  merged_chapters_requires_nonempty.2 _ (by decide)

/-- C3 counterexample: the empty raw time string splits into one
colon-delimited field, neither 2 nor 3, yet Anchor construction
succeeds with the all-empty anchor instead of failing, because the
initializer bypasses split_time for a whitespace-only time. -/
theorem anchor_parse_error_counterexample :
    (pySplit ':' (pyStrip "".data)).length ≠ 2 ∧
    (pySplit ':' (pyStrip "".data)).length ≠ 3 ∧
    mkAnchor "f".data "".data = some (.known "f".data [] [] []) := by decide

/-- C3 (amended): Anchor construction fails with a parsing error iff
the raw time does not strip to the empty string, and it either splits
into neither 2 nor 3 colon-delimited fields or splits into exactly 2
fields whose minutes field is not a valid integer literal; a
whitespace-only time yields the all-empty anchor without error. -/
theorem anchor_parse_error_iff (f s : List Char) :
    mkAnchor f s = none ↔
      pyStrip s ≠ [] ∧
      (((pySplit ':' (pyStrip s)).length ≠ 2 ∧ (pySplit ':' (pyStrip s)).length ≠ 3) ∨
        ∃ mm ss, pySplit ':' (pyStrip s) = [mm, ss] ∧ pyInt mm = none) := by
  by_cases h : pyStrip s = []
  · simp [mkAnchor, h]
  · rcases hl : pySplit ':' (pyStrip s) with _ | ⟨a, _ | ⟨b, _ | ⟨c, d⟩⟩⟩
    · simp [mkAnchor, split_time, h, hl]
    · simp [mkAnchor, split_time, h, hl]
    · rcases hm : pyInt a with _ | m
      · simp [mkAnchor, split_time, h, hl, hm]
      · constructor
        · intro hc
          exfalso
          simp [mkAnchor, split_time, h, hl, hm] at hc
          split at hc <;> simp at hc
        · rintro ⟨-, hbad | ⟨mm, ss, hms, hmm⟩⟩
          · simp at hbad
          · rw [List.cons.injEq, List.cons.injEq] at hms
            rcases hms with ⟨rfl, rfl, -⟩
            rw [hm] at hmm
            exact absurd hmm (by simp)
    · rcases d with _ | ⟨e, t⟩
      · simp [mkAnchor, split_time, h, hl]
      · simp [mkAnchor, split_time, h, hl]

/-- C6 (code bug evidence): for a part file whose tag carries no
overdrive mediamarkers frame, read_chapters itself does not raise and
stores None, but the exposed chapter list is not empty: the chapters
property evaluates None + [] and raises a TypeError, while for a stored
list it returns the snapshot copy. So such a part never contributes an
empty chapter list to the concatenation; iterating it fails instead. -/
theorem missing_marker_tag_breaks_chapters :
    read_chapters "f".data [("title".data, "x".data), ("artist".data, "y".data)]
      (fun _ => []) = some none ∧
    chapters_view none =
      .error "TypeError: unsupported operand types for +: NoneType and list".data ∧
    ∀ l : List Chapter, chapters_view (some l) = .ok l := by
  refine ⟨by rfl, by rfl, fun l => ?_⟩
  simp [chapters_view]

/-- C8: is_end_known reports identity with the process-wide Unknown
sentinel, so an independently constructed anchor from the empty
filepath and empty time, though it carries the same empty field values
as the sentinel, is a distinct value and a chapter ending at it is
reported as having a known end. -/
theorem is_end_known_is_identity :
    (∀ ch : Chapter, ch.is_end_known = decide (ch.end_anchor ≠ Anchor.Unknown)) ∧
    mkAnchor [] [] = some (.known [] [] [] []) ∧
    Anchor.known [] [] [] [] ≠ Anchor.Unknown ∧
    (Chapter.mk "t".data Anchor.Unknown (.known [] [] [] [])).is_end_known = true ∧
    (Chapter.mk "t".data Anchor.Unknown Anchor.Unknown).is_end_known = false := by
  refine ⟨fun ch => ?_, by decide, by decide, by decide, by decide⟩
  rcases ch with ⟨t, st, e⟩
  cases e <;> simp [Chapter.is_end_known]

/-- C2: splitting a merged chapter runs the media splitter from the
start time to the end of the start file when the end anchor is the
Unknown sentinel, between the two times when both anchors name the same
filepath, and otherwise raises the not supported error, producing no
splitter command. -/
theorem split_case_analysis (idx : Nat) (ch : Chapter) (out_path : List Char) :
    split idx ch out_path =
      (if ch.end_anchor = Anchor.Unknown then
        .ok (.toEnd ch.start_anchor.filepath
          (pathJoin out_path
            (sanitize_filename (intStr (Int.ofNat idx) ++ ' ' :: ch.title) ++ ".mp3".data))
          ch.start_anchor.time)
      else if ch.start_anchor.filepath = ch.end_anchor.filepath then
        .ok (.range ch.start_anchor.filepath
          (pathJoin out_path
            (sanitize_filename (intStr (Int.ofNat idx) ++ ' ' :: ch.title) ++ ".mp3".data))
          ch.start_anchor.time ch.end_anchor.time)
      else .error "Merging of files is not supported yet".data) := by
  rcases ch with ⟨t, st, e⟩
  cases e <;> simp [split]

/-- C7: filename sanitization first strips surrounding whitespace, then
replaces every space with an underscore, then keeps only word
characters, hyphens and periods, so every character of the output
satisfies the keep predicate; on the spec example the colon, the
exclamation mark and the outer whitespace disappear and the inner
spaces become underscores. -/
theorem sanitize_filename_spec :
    (∀ s : List Char, sanitize_filename s =
      ((pyStrip s).map (fun c => if c = ' ' then '_' else c)).filter keepChar) ∧
    (∀ s : List Char, ∀ c ∈ sanitize_filename s, keepChar c = true) ∧
    sanitize_filename "  My Chapter: One! ".data = "My_Chapter_One".data := by
  refine ⟨fun s => rfl, fun s c hc => ?_, by decide⟩
  exact (List.mem_filter.mp hc).2

/-- C7 witness: the theorem applied to the spec example and its first
output character. -/
theorem sanitize_filename_spec_witness : keepChar 'M' = true :=
  sanitize_filename_spec.2.1 "  My Chapter: One! ".data 'M' (by decide)

/-- C9 counterexample: a directory entry with a mixed-case extension,
which a case-insensitive match accepts, is excluded by read_dir: the
source only matches the dotted extension exactly or fully uppercased. -/
theorem read_dir_counterexample :
    read_dir "d".data ["b.Mp3".data] "mp3".data = [] ∧
    read_dir_spec "d".data ["b.Mp3".data] "mp3".data = ["d/b.Mp3".data] := by decide

/-- C9 (amended): the part sequence consists of exactly the directory
entries whose filename ends with the dotted extension or with its fully
uppercased form (so mixed-case extensions are excluded), ordered by
sorted filename and joined onto the directory path. -/
theorem read_dir_amended (dirname : List Char) (entries : List (List Char)) (ext : List Char) :
    ∃ l : List (List Char),
      l.Sorted (fun a b => a ≤ b) ∧
      l.Perm (entries.filter
        (fun g => pyEndsWith g ('.' :: ext) || pyEndsWith g (pyUpper ('.' :: ext)))) ∧
      read_dir dirname entries ext = l.map (fun g => pathJoin dirname g) := by
  refine ⟨(List.insertionSort (fun a b : List Char => a ≤ b) entries).filter
      (fun g => pyEndsWith g ('.' :: ext) || pyEndsWith g (pyUpper ('.' :: ext))), ?_, ?_, rfl⟩
  · exact List.Pairwise.sublist (List.filter_sublist _)
      (List.sorted_insertionSort (fun a b : List Char => a ≤ b) entries)
  · exact (List.perm_insertionSort (fun a b : List Char => a ≤ b) entries).filter _

/-- C4: for a two-field time whose minutes parse to m, the constructed
anchor normalizes minute overflow: when 60 <= m the hours are the
zero-filled decimal rendering of m floor-divided by 60 and the minutes
of m modulo 60, and when m < 60 the hours are a literal 00 while the
minutes field is kept verbatim; the seconds field is kept verbatim in
both cases. -/
theorem two_field_time_normalization (f s mm ss : List Char) (m : Int)
    (hsplit : pySplit ':' (pyStrip s) = [mm, ss]) (hmm : pyInt mm = some m) :
    (60 ≤ m → mkAnchor f s = some (.known (if f = [] then [] else pyAbspath f)
        (pyZfill (intStr (m.fdiv 60)) 2) (pyZfill (intStr (m.fmod 60)) 2) ss)) ∧
    (m < 60 → mkAnchor f s = some (.known (if f = [] then [] else pyAbspath f)
        ['0', '0'] mm ss)) := by
  have hne : pyStrip s ≠ [] := by
    intro h
    rw [h] at hsplit
    simp [pySplit] at hsplit
  constructor
  · intro h60
    simp [mkAnchor, split_time, hne, hsplit, hmm, h60]
  · intro h60
    simp [mkAnchor, split_time, hne, hsplit, hmm, not_le.mpr h60]

/-- C4 witness: parsing 75:30 yields hours 01, minutes 15, seconds
30. -/
theorem two_field_time_normalization_witness :
    mkAnchor "f".data "75:30".data
      = some (.known "f".data "01".data "15".data "30".data) := by
  have h := (two_field_time_normalization "f".data "75:30".data "75".data "30".data 75
    (by decide) (by decide)).1 (by decide)
  exact h

/-- The denominator produced by pyFloatMag is positive. -/
theorem pyFloatMag_den_pos (t : List Char) (p : Int) (q : Nat)
    (h : pyFloatMag t = some (p, q)) : 0 < q := by
  unfold pyFloatMag at h
  split at h
  · split at h
    · simp at h
      omega
    · simp at h
  · split at h
    · simp at h
      rw [← h.2]
      positivity
    · simp at h
  · simp at h

/-- The denominator produced by pyFloat is positive. -/
theorem pyFloat_den_pos (s : List Char) (p : Int) (q : Nat)
    (h : pyFloat s = some (p, q)) : 0 < q := by
  rw [pyFloat] at h
  rcases hps : pyStrip s with _ | ⟨c, rest⟩ <;> rw [hps] at h
  · simp [pyFloatSigned] at h
  · simp only [pyFloatSigned] at h
    split_ifs at h
    · exact pyFloatMag_den_pos rest p q h
    · rcases hm : pyFloatMag rest with _ | ⟨p', q'⟩ <;> rw [hm] at h <;> simp at h
      exact h.2 ▸ pyFloatMag_den_pos rest p' q' hm
    · exact pyFloatMag_den_pos (c :: rest) p q h

/-- The exact isclose comparison of a fraction with positive
denominator against zero holds precisely when the fraction's absolute
value is at most one hundredth: the relative-tolerance arm of the
isclose formula never enlarges the bound past the absolute tolerance
here, because it only wins when the value itself is far larger than
one hundredth. -/
theorem isclose0_iff (p : Int) (q : Nat) (hq : 0 < q) :
    isclose0 p q = true ↔ |(p : ℚ) / (q : ℚ)| ≤ 1 / 100 := by
  have hQ : (0 : ℤ) < (q : ℤ) := by exact_mod_cast hq
  have hA0 : 0 ≤ absInt p := by unfold absInt; split <;> omega
  have habs : |(p : ℚ)| = ((absInt p : ℤ) : ℚ) := by
    unfold absInt
    split
    · rw [abs_of_neg (by exact_mod_cast ‹p < 0›)]
      push_cast
      ring
    · rw [abs_of_nonneg (by exact_mod_cast (not_lt.mp ‹¬p < 0›))]
  have hrhs : (|(p : ℚ) / (q : ℚ)| ≤ 1 / 100) ↔ (absInt p * 100 ≤ (q : ℤ)) := by
    rw [abs_div, habs, abs_of_nonneg (by positivity : (0 : ℚ) ≤ (q : ℚ))]
    rw [div_le_div_iff₀ (by exact_mod_cast hq) (by norm_num : (0 : ℚ) < 100)]
    rw [one_mul]
    constructor
    · intro h
      exact_mod_cast h
    · intro h
      exact_mod_cast h
  rw [hrhs]
  unfold isclose0 fracLe
  split
  · next hrel =>
    rw [decide_eq_true_iff]
    push_cast
    constructor
    · intro h
      calc absInt p * 100 ≤ 1 * (q : ℤ) := h
        _ = (q : ℤ) := one_mul _
    · intro h
      omega
  · next hrel =>
    rw [decide_eq_true_iff] at hrel ⊢
    push_cast at hrel ⊢
    have hApos : 0 < absInt p := by nlinarith
    constructor
    · intro h
      exfalso
      nlinarith
    · intro h
      exfalso
      nlinarith

/-- C5: for a non-sentinel anchor, is_start_anchor answers true exactly
when the minutes field parses to zero and the seconds field parses to a
value within absolute tolerance 0.01 of zero; in particular it is true
for minutes 00 with seconds 00.00 or 0.009, and false for minutes 00
with seconds 0.02 and for minutes 01 with seconds 00. -/
theorem is_start_anchor_tolerance :
    (∀ f hh mm ss : List Char,
      is_start_anchor (.known f hh mm ss) = some true ↔
        pyInt mm = some 0 ∧
        ∃ p : Int, ∃ q : Nat, pyFloat ss = some (p, q) ∧ |(p : ℚ) / (q : ℚ)| ≤ 1 / 100) ∧
    is_start_anchor (.known [] [] "00".data "00.00".data) = some true ∧
    is_start_anchor (.known [] [] "00".data "0.009".data) = some true ∧
    is_start_anchor (.known [] [] "00".data "0.02".data) = some false ∧
    is_start_anchor (.known [] [] "01".data "00".data) = some false := by
  refine ⟨fun f hh mm ss => ?_, by decide, by decide, by decide, by decide⟩
  rcases hmm : pyInt mm with _ | m
  · simp [is_start_anchor, Anchor.time_mm, Anchor.time_ss, hmm]
  · by_cases hm0 : m = 0
    · subst hm0
      rcases hfs : pyFloat ss with _ | ⟨p, q⟩
      · simp [is_start_anchor, Anchor.time_mm, Anchor.time_ss, hmm, hfs]
      · have hq := pyFloat_den_pos ss p q hfs
        have hl : is_start_anchor (.known f hh mm ss) = some (isclose0 p q) := by
          simp [is_start_anchor, Anchor.time_mm, Anchor.time_ss, hmm, hfs]
        rw [hl]
        constructor
        · intro hb
          exact ⟨rfl, p, q, rfl, (isclose0_iff p q hq).mp (Option.some.inj hb)⟩
        · rintro ⟨-, p', q', hpq, hle⟩
          rw [Option.some.injEq, Prod.mk.injEq] at hpq
          rcases hpq with ⟨rfl, rfl⟩
          exact congrArg some ((isclose0_iff p q hq).mpr hle)
    · simp [is_start_anchor, Anchor.time_mm, Anchor.time_ss, hmm, hm0]

/-- List.mapM in the Option monad succeeds pointwise: when every
element maps to some value, the whole traversal is the plain map. -/
theorem mapM_eq_map_of_some {α β : Type} (f : α → Option β) (g : α → β) (l : List α)
    (h : ∀ a ∈ l, f a = some (g a)) : l.mapM f = some (l.map g) := by
  induction l with
  | nil => rfl
  | cons x xs ih =>
    rw [List.mapM_cons, h x (List.mem_cons_self x xs),
      ih (fun a ha => h a (List.mem_cons_of_mem x ha))]
    rfl

/-- When is_start_anchor is defined on the successor start, merge_pair
produces exactly the chapter the spec claim describes. -/
theorem merge_pair_eq_spec (pc : Chapter × Chapter)
    (h : (is_start_anchor pc.2.start_anchor).isSome) :
    merge_pair pc = some (Chapter.mk pc.1.title pc.1.start_anchor (merged_end_spec pc.2)) := by
  obtain ⟨b, hb⟩ := Option.isSome_iff_exists.mp h
  unfold merge_pair merged_end_spec
  rw [hb]
  cases b
  · simp [hb]
  · simp [hb]

/-- The zipped-and-mapped pair list of the merge loop, with the final
chapter appended, is the merged chapter sequence the spec claims. -/
theorem spec_append (c : Chapter) (rest : List Chapter) :
    (((c :: rest).dropLast.zip ((c :: rest).drop 1)).map
        (fun pc => Chapter.mk pc.1.title pc.1.start_anchor (merged_end_spec pc.2))) ++
      [Chapter.mk (rest.getLastD c).title (rest.getLastD c).start_anchor .Unknown] =
    merged_chapters_spec (c :: rest) := by
  induction rest generalizing c with
  | nil => simp [merged_chapters_spec]
  | cons d rest ih =>
    have ihd := ih d
    rw [show (d :: rest).drop 1 = rest from rfl] at ihd
    rw [show (c :: d :: rest).dropLast = c :: (d :: rest).dropLast from rfl,
      show (c :: d :: rest).drop 1 = d :: rest from rfl,
      List.zip_cons_cons, List.map_cons, List.cons_append,
      List.getLastD_cons, ihd]
    simp [merged_chapters_spec]

/-- C1: on every non-empty concatenated chapter sequence on whose
successor starts is_start_anchor is defined, merged_chapters returns
exactly one output chapter per input chapter: chapter i keeps title and
start of input i and ends at Unknown when the successor start is a
start anchor and at the successor start otherwise, while the last
output chapter ends at Unknown unconditionally, as described by
merged_chapters_spec. -/
theorem merged_chapters_one_to_one (cs : List Chapter) (hne : cs ≠ [])
    (hdef : ∀ ch ∈ cs.drop 1, (is_start_anchor ch.start_anchor).isSome) :
    merged_chapters cs = some (merged_chapters_spec cs) := by
  rcases cs with _ | ⟨c, rest⟩
  · exact absurd rfl hne
  · have hpairs : ∀ pc ∈ ((c :: rest).dropLast).zip ((c :: rest).drop 1),
        merge_pair pc =
          some (Chapter.mk pc.1.title pc.1.start_anchor (merged_end_spec pc.2)) := by
      rintro ⟨a, b⟩ hpc
      exact merge_pair_eq_spec (a, b) (hdef b (List.of_mem_zip hpc).2)
    simp only [merged_chapters]
    rw [mapM_eq_map_of_some merge_pair
      (fun pc => Chapter.mk pc.1.title pc.1.start_anchor (merged_end_spec pc.2)) _ hpairs]
    simp only [Option.map_some']
    rw [spec_append]

/-- C1 witness: the spec example of four chapters over two files merges
to the sequence the claim describes. -/
theorem merged_chapters_one_to_one_witness :
    merged_chapters
        [exChapter "Ch1" (exAnchor "file1" "00" "00" "00"),
         exChapter "Ch2" (exAnchor "file1" "00" "10" "00"),
         exChapter "Ch3" (exAnchor "file2" "00" "00" "00"),
         exChapter "Ch4" (exAnchor "file2" "00" "05" "00")] =
      some (merged_chapters_spec
        [exChapter "Ch1" (exAnchor "file1" "00" "00" "00"),
         exChapter "Ch2" (exAnchor "file1" "00" "10" "00"),
         exChapter "Ch3" (exAnchor "file2" "00" "00" "00"),
         exChapter "Ch4" (exAnchor "file2" "00" "05" "00")]) :=
  merged_chapters_one_to_one _ (by decide) (by decide)
